import Mathlib

/-!
Verification of the `trai-reza/catalog` repository (five Python scripts that
render a film-project dossier into styled PDF catalogues) against its
natural-language specification.

Python strings are modelled as lists of characters (`Text`); Python's
whitespace handling is modelled over the ASCII whitespace characters via
`Char.isWhitespace`, and `str.isdigit` / `str.isupper` are modelled for the
Basic Latin range via `Char.isDigit` / `Char.isAlpha`/`Char.isLower`.
Floating-point arithmetic in the image-scaling code is modelled as exact
rational arithmetic over `ℚ`.  Fallible operations (missing files, failing
list lookups) return `Except`/`Option` values.
-/

/-- Python strings, modelled as lists of characters. -/
abbrev Text : Type := List Char

/-- Python `str.strip()` with no argument: remove leading and trailing
whitespace. -/
def pyStrip (t : Text) : Text :=
  ((t.dropWhile Char.isWhitespace).reverse.dropWhile Char.isWhitespace).reverse

/-- Python `str.lstrip()` with no argument: remove leading whitespace. -/
def pyLStrip (t : Text) : Text :=
  t.dropWhile Char.isWhitespace

/-- Python `str.rstrip(":")`: remove trailing colon characters. -/
def pyRStripColon (t : Text) : Text :=
  (t.reverse.dropWhile (fun c => c = ':')).reverse

/-- Python `str.lower()` (modelled characterwise via `Char.toLower`). -/
def pyLower (t : Text) : Text :=
  t.map Char.toLower

/-- Python `needle in haystack` substring test. -/
def pyIn (needle : Text) : Text → Bool
  | [] => needle.isEmpty
  | c :: rest => needle.isPrefixOf (c :: rest) || pyIn needle rest

/-- Python `str.isdigit()` (modelled for the Basic Latin range): nonempty and
all characters are digits. -/
def pyIsDigit (t : Text) : Bool :=
  !t.isEmpty && t.all Char.isDigit

/-- Python `str.isupper()` (modelled for the Basic Latin range): at least one
cased character and no lowercase character. -/
def pyIsUpper (t : Text) : Bool :=
  t.any Char.isAlpha && t.all (fun c => !c.isLower)

/-- Python `x in xs` membership test on a list of strings. -/
def pyInList (x : Text) (xs : List Text) : Bool :=
  xs.any (fun y => y = x)

/-- Python `str.endswith(":")`. -/
def pyEndsWithColon (t : Text) : Bool :=
  match t.getLast? with
  | some c => c = ':'
  | none => false

/-- Python `" ".join(parts)`. -/
def joinSpaces (parts : List Text) : Text :=
  List.intercalate [' '] parts

/-- Python `text.replace(pat, rep)` for a single-character pattern `pat`:
every occurrence of the character is replaced by `rep`. -/
def pyReplaceChar (t : Text) (pat : Char) (rep : Text) : Text :=
  t.flatMap (fun c => if c = pat then rep else [c])

/-! ### `build_catalog.py`: `escape` and `format_label_value` -/

/-- `build_catalog.escape`: escape characters that are special in ReportLab's
para markup (`&` then `<` then `>` then newline, in that order). -/
def escape (t : Text) : Text :=
  pyReplaceChar
    (pyReplaceChar
      (pyReplaceChar
        (pyReplaceChar t '&' "&amp;".toList)
        '<' "&lt;".toList)
      '>' "&gt;".toList)
    '\n' "<br/>".toList

/-- `build_catalog.format_label_value`: if the text contains a colon, split at
the first colon (`text.split(":", 1)`), strip the label, left-strip the value
and bold the label; otherwise escape the whole text. -/
def format_label_value (t : Text) : Text :=
  if pyIn [':'] t then
    let label := t.takeWhile (fun c => c ≠ ':')
    let value := (t.dropWhile (fun c => c ≠ ':')).tail
    "<b>".toList ++ escape (pyStrip label) ++ ":</b> ".toList ++ escape (pyLStrip value)
  else
    escape t

/-! ### `coalesce_paragraphs` (three textually identical copies)

`generate_original_title_pdf.py`, `generate_stateless_catalog_v2.py` and
`restructure_original_title.py` each define the same function: walk the lines
keeping a buffer of stripped non-blank lines; at a blank line flush the buffer
as one space-joined paragraph; flush the final buffer at the end. -/

/-- The shared loop of `coalesce_paragraphs`, with the explicit `buffer`
accumulator of the source. -/
def coalesceAux (buffer : List Text) : List Text → List Text
  | [] => if buffer.isEmpty then [] else [joinSpaces buffer]
  | line :: rest =>
    let stripped := pyStrip line
    if stripped.isEmpty then
      if buffer.isEmpty then coalesceAux [] rest
      else joinSpaces buffer :: coalesceAux [] rest
    else
      coalesceAux (buffer ++ [stripped]) rest

/-- `generate_original_title_pdf.coalesce_paragraphs`. -/
def coalesce_paragraphs_got (lines : List Text) : List Text :=
  coalesceAux [] lines

/-- `generate_stateless_catalog_v2.coalesce_paragraphs`. -/
def coalesce_paragraphs_v2 (lines : List Text) : List Text :=
  coalesceAux [] lines

/-- `restructure_original_title.coalesce_paragraphs`. -/
def coalesce_paragraphs_rst (lines : List Text) : List Text :=
  coalesceAux [] lines

/-- A line is non-blank after stripping. -/
def nonBlank (l : Text) : Bool :=
  !(pyStrip l).isEmpty

/-- Specification of paragraph coalescing, stated through maximal runs: skip
blank lines; at a non-blank line, the maximal run of non-blank lines starting
there becomes one paragraph (the space-join of its stripped lines), and the
rest of the input is processed recursively. -/
def runsSpec : List Text → List Text
  | [] => []
  | line :: rest =>
    if nonBlank line then
      joinSpaces (pyStrip line :: (rest.takeWhile nonBlank).map pyStrip) ::
        runsSpec (rest.dropWhile nonBlank)
    else
      runsSpec rest
termination_by lines => lines.length
decreasing_by
  · have h : (rest.dropWhile nonBlank).length ≤ rest.length := by
      induction rest with
      | nil => simp
      | cons a l ih =>
        rw [List.dropWhile_cons]
        split
        · exact le_trans ih (Nat.le_succ _)
        · simp
    simpa using Nat.lt_succ_of_le h
  · simp

/-! ### The section parsers (`parse_content`)

`restructure_original_title.parse_content` walks the document lines with a
current section (initially the cover), switching sections when a line whose
colon-right-stripped lowercase form is a key of its heading table, appending
stripped lines (blank lines as empty strings) to the current section's list
in an `OrderedDict` pre-seeded with every canonical section name.
`generate_stateless_catalog_v2.parse_content` does the same over the lines of
`main-content.txt`, except that it additionally skips lines consisting solely
of digits (page numbers copied from a PDF extraction) and matches a heading by
comparing colon-right-stripped lowercase forms of line and candidate. -/

/-- Lookup of the first entry with the given key in an association list of
strings (a Python `dict` lookup). -/
def assocLookup : List (Text × Text) → Text → Option Text
  | [], _ => none
  | (k, v) :: rest, key => if k = key then some v else assocLookup rest key

/-- The `heading_map` of `restructure_original_title.parse_content`
(lines 383-403): lowercase key to canonical section name. -/
def heading_map_rst : List (Text × Text) :=
  [("general information".toList, "General Information".toList),
   ("contact".toList, "Contact".toList),
   ("logline".toList, "Logline".toList),
   ("synopsis".toList, "Synopsis".toList),
   ("artistic approach".toList, "Artistic Approach".toList),
   ("director's notes".toList, "Director's Notes".toList),
   ("director’s notes".toList, "Director's Notes".toList),
   ("producer's note".toList, "Producer's Note".toList),
   ("producer’s note".toList, "Producer's Note".toList),
   ("finance plan".toList, "Finance Plan".toList),
   ("outlook & distribution".toList, "Outlook & Distribution".toList),
   ("biography".toList, "Biography".toList),
   ("filmography".toList, "Filmography".toList),
   ("festivals".toList, "Festivals".toList),
   ("awards".toList, "Awards".toList),
   ("tv broadcast".toList, "TV Broadcast".toList),
   ("links to previous movie".toList, "Links to Previous Movie".toList)]

/-- The `heading_map` of `generate_stateless_catalog_v2.parse_content`
(lines 85-103): candidate heading to canonical section name. -/
def heading_map_v2 : List (Text × Text) :=
  [("General information".toList, "General Information".toList),
   ("Contact".toList, "Contact".toList),
   ("Logline".toList, "Logline".toList),
   ("Synopsis".toList, "Synopsis".toList),
   ("Artistic Approach".toList, "Artistic Approach".toList),
   ("Director's Notes".toList, "Director's Notes".toList),
   ("Producer's Note".toList, "Producer's Note".toList),
   ("Finance Plan".toList, "Finance Plan".toList),
   ("Outlook & Distribution".toList, "Outlook & Distribution".toList),
   ("Biography".toList, "Biography".toList),
   ("Filmography".toList, "Filmography".toList),
   ("Festivals".toList, "Festivals".toList),
   ("Awards".toList, "Awards".toList),
   ("TV Broadcast".toList, "TV Broadcast".toList),
   ("Links to Previous movie".toList, "Links to Previous Movie".toList)]

/-- Heading recognition in `restructure_original_title.parse_content`:
`key = line.rstrip(":").lower()` looked up in `heading_map`. -/
def headingOfRst (line : Text) : Option Text :=
  assocLookup heading_map_rst (pyLower (pyRStripColon line))

/-- Heading recognition in `generate_stateless_catalog_v2.parse_content`: the
line key is compared against `candidate.rstrip(":").lower()` for each
candidate of `heading_map` in order. -/
def scanCandidates : List (Text × Text) → Text → Option Text
  | [], _ => none
  | (cand, canon) :: rest, key =>
    if pyLower (pyRStripColon cand) = key then some canon else scanCandidates rest key

/-- Heading recognition in `generate_stateless_catalog_v2.parse_content`. -/
def headingOfV2 (line : Text) : Option Text :=
  scanCandidates heading_map_v2 (pyLower (pyRStripColon line))

/-- Append `v` to the entry of key `k` (the first such entry); the map is
unchanged when `k` has no entry (unreachable in the parsers: every canonical
name is pre-seeded). -/
def updateSec : List (Text × List Text) → Text → Text → List (Text × List Text)
  | [], _, _ => []
  | (k', vs) :: rest, k, v =>
    if k' = k then (k', vs ++ [v]) :: rest else (k', vs) :: updateSec rest k v

/-- Lookup of a section's lines (empty when the key has no entry). -/
def lookupSec : List (Text × List Text) → Text → List Text
  | [], _ => []
  | (k', vs) :: rest, k => if k' = k then vs else lookupSec rest k

/-- Builds `OrderedDict((v, []) for v in heading_map.values())`: one empty
entry per canonical name, in first-occurrence order, duplicates collapsed
(`seen` records the keys already inserted). -/
def seedSecsAux (seen : List Text) : List Text → List (Text × List Text)
  | [] => []
  | c :: rest =>
    if pyInList c seen then seedSecsAux seen rest
    else (c, []) :: seedSecsAux (seen ++ [c]) rest

/-- `OrderedDict((v, []) for v in heading_map.values())`. -/
def seedSecs (cs : List Text) : List (Text × List Text) :=
  seedSecsAux [] cs

/-- The parser state: cover lines, the section `OrderedDict` and the current
section (`none` models the `"Cover"` sentinel). -/
structure ParseState where
  cover : List Text
  secs : List (Text × List Text)
  current : Option Text

/-- One line of `parse_content`, shared by both scripts: `skipDigits` is true
only for the v2 parser (its `line.isdigit()` skip), and `headingOf` is the
script's heading recognition. -/
def parseStep (skipDigits : Bool) (headingOf : Text → Option Text)
    (st : ParseState) (raw : Text) : ParseState :=
  let line := pyStrip raw
  if line.isEmpty then
    match st.current with
    | none => { st with cover := st.cover ++ [[]] }
    | some c => { st with secs := updateSec st.secs c [] }
  else if skipDigits && pyIsDigit line then st
  else
    match headingOf line with
    | some canon => { st with current := some canon }
    | none =>
      match st.current with
      | none => { st with cover := st.cover ++ [line] }
      | some c => { st with secs := updateSec st.secs c line }

/-- Initial parser state over the given canonical names. -/
def initState (canon : List Text) : ParseState :=
  ⟨[], seedSecs canon, none⟩

/-- `restructure_original_title.parse_content` (lines 381-430). -/
def parse_content_rst (lines : List Text) : ParseState :=
  lines.foldl (parseStep false headingOfRst)
    (initState (heading_map_rst.map Prod.snd))

/-- `generate_stateless_catalog_v2.parse_content` (lines 80-141), over the
lines of the normalized source text. -/
def parse_content_v2 (lines : List Text) : ParseState :=
  lines.foldl (parseStep true headingOfV2)
    (initState (heading_map_v2.map Prod.snd))

/-! Specification of the parsers, stated positionally: a line is assigned to
the section selected by the nearest preceding heading line (to the cover when
no heading precedes it). -/

/-- The canonical section a raw line selects when it is a heading line
(`none` otherwise). -/
def headingSel (skipDigits : Bool) (headingOf : Text → Option Text)
    (raw : Text) : Option Text :=
  let s := pyStrip raw
  if s.isEmpty then none
  else if skipDigits && pyIsDigit s then none
  else headingOf s

/-- The value a raw line contributes to its section: the empty string for a
blank line, the stripped line for a content line, nothing for a skipped
digit-only line or a heading line. -/
def keepVal (skipDigits : Bool) (headingOf : Text → Option Text)
    (raw : Text) : Option Text :=
  let s := pyStrip raw
  if s.isEmpty then some []
  else if skipDigits && pyIsDigit s then none
  else
    match headingOf s with
    | some _ => none
    | none => some s

/-- The section governing the position after `lines`: the canonical name
selected by the last heading line, `none` when no heading occurred. -/
def govern (skipDigits : Bool) (headingOf : Text → Option Text)
    (lines : List Text) : Option Text :=
  (lines.filterMap (headingSel skipDigits headingOf)).getLast?

/-- Specification of a section's content: the contributed values of the lines
governed by `c`, in input order. -/
def specSection (skipDigits : Bool) (headingOf : Text → Option Text)
    (lines : List Text) (c : Text) : List Text :=
  lines.enum.filterMap (fun p =>
    match keepVal skipDigits headingOf p.2 with
    | none => none
    | some v =>
      if govern skipDigits headingOf (lines.take p.1) = some c then some v
      else none)

/-- Specification of the cover: the contributed values of the lines preceding
every heading, in input order. -/
def specCover (skipDigits : Bool) (headingOf : Text → Option Text)
    (lines : List Text) : List Text :=
  lines.enum.filterMap (fun p =>
    match keepVal skipDigits headingOf p.2 with
    | none => none
    | some v =>
      if govern skipDigits headingOf (lines.take p.1) = none then some v
      else none)

/-! ### `build_catalog.py`: the `build_catalogue` pipeline -/

/-- Errors raised by the scripts. -/
inductive PyErr
  | fileNotFound (msg : Text)
  | valueError (item : Text)
  | indexError
deriving DecidableEq

/-- ReportLab flowables, reduced to the data the scripts put in them. -/
inductive Flowable
  | para (text : Text) (style : Text)
  | spacer (h : ℚ)
  | image (file : Text) (w h : ℚ)
  | sectionHeader (text : Text)
  | pageBreak
deriving DecidableEq

/-- One centimetre in points (`reportlab.lib.units.cm`). -/
def cmQ : ℚ := 3600 / 127

/-- One inch in points (`reportlab.lib.units.inch`). -/
def inchQ : ℚ := 72

/-- The A4 page width in points (210 mm). -/
def a4Width : ℚ := 75600 / 127

/-- `doc.width` of `build_catalogue`: the A4 width minus the two 2 cm side
margins. -/
def pageWidthB : ℚ := a4Width - 4 * cmQ

/-- The fixed inputs `build_catalogue` reads: whether `main-content.docx` and
`assets/photos` exist, the docx paragraph texts, the image files present in
`assets/photos` and their intrinsic dimensions (`img.imageWidth/imageHeight`,
positive for any image ReportLab can open). -/
structure BuildFS where
  docxExists : Bool
  docxParagraphs : List Text
  photosDirExists : Bool
  photoFiles : List Text
  photoDims : Text → ℚ × ℚ

/-- `list.index(x)`: index of the first occurrence, `ValueError` when the
item is absent. -/
def pyListIndex (ps : List Text) (x : Text) : Except PyErr Nat :=
  match ps.findIdx? (fun y => y = x) with
  | some i => .ok i
  | none => .error (.valueError x)

/-- `paragraphs[i]`: `IndexError` when out of range. -/
def pyGet (ps : List Text) (i : Nat) : Except PyErr Text :=
  match ps.get? i with
  | some t => .ok t
  | none => .error .indexError

/-- The twelve section-heading strings of `build_catalogue`'s `index`
comprehension (lines 69-82), in source order. -/
def catalogHeadings : List Text :=
  ["General information:".toList,
   "Contact:".toList,
   "Logline".toList,
   "Synopsis".toList,
   "Artistic Approach".toList,
   "Director's Notes".toList,
   "Producer’s Note".toList,
   "Finance Plan".toList,
   "Outlook & Distribution".toList,
   "Biography:".toList,
   "Filmography:".toList,
   "Links to Previous movie:".toList]

/-- The `index` dict comprehension: evaluated in list order, raising
`ValueError` at the first absent heading. -/
def buildIndex (ps : List Text) : List Text → Except PyErr (List (Text × Nat))
  | [] => .ok []
  | h :: rest => do
    let i ← pyListIndex ps h
    let m ← buildIndex ps rest
    .ok ((h, i) :: m)

/-- Lookup in the built index (total: every heading is present whenever the
construction succeeded). -/
def indexOf : List (Text × Nat) → Text → Nat
  | [], _ => 0
  | (k', i) :: rest, k => if k' = k then i else indexOf rest k

/-- The `captions` table of `build_catalogue` (lines 50-62). -/
def captions : List (Text × Text) :=
  [("photo01.png".toList,
    "Stateless as wind\nAutobiographical Documentary by Samereh Rezaei  2015_2025".toList),
   ("photo02.jpeg".toList,
    "Iran, Tehran, trying to stay in my hometown, last-ditch pleas to convince the Islamic Republic of Iran Police".toList),
   ("photo03.png".toList,
    "A poetic journey through exile,   womanhood,   and the wind of belonging.".toList),
   ("photo04.jpeg".toList,
    "“Yasna and Delsa” — my brother’s little girls, a third generation still foreign to the land they call home.\nUnaware of what awaits them, they dance — free, bright, and untouched by destiny.".toList),
   ("photo05.jpeg".toList,
    "My mother — a woman who was separated from her home during the Soviet war forty years ago.\nAfter years of struggle, she now tries to preserve what is left of it… but what truly remains of home?".toList),
   ("photo06.jpeg".toList,
    "Afghanistan —  the only corner of the world that was truly ours.  Now I stand helpless, watching it crumble, moment by moment…".toList),
   ("photo09.png".toList,
    "The children who become victims of exile — they grow up amid the silence of broken goodbyes, learning too soon what it means for a family to fall apart.".toList),
   ("photo10.png".toList,
    "Women from different generations, gathered in a single frame — each a victim of exile.  Mother, who came to Iran forty years ago. Pari, who grew up on its soil.  Samereh, the second generation, born here.  Yesna and Delsa, the third — children who have never known another land.\nAnd yet, they all carry the same mark of identity: foreign nationals.".toList),
   ("photo12.png".toList,
    "Lost and disoriented, I dance. I take refuge in the inner world, searching for myself.".toList),
   ("photo13.jpeg".toList,
    "Samereh Rezaei during the production journey of “Stateless as Wind”.".toList)]

/-- `captions[k]` (total: all call sites use present keys). -/
def captionOf (k : Text) : Text :=
  (assocLookup captions k).getD []

/-- `image_with_caption` (lines 189-210): raise `FileNotFoundError` when the
photo is absent; scale the image to the page width, capped at 5.5 inch
height; append spacers, the image and the escaped caption. -/
def image_with_caption (fs : BuildFS) (filename : Text) (caption : Option Text)
    (addTopSpace : Bool) : Except PyErr (List Flowable) :=
  if !pyInList filename fs.photoFiles then
    .error (.fileNotFound
      ("Image ".toList ++ filename ++ " not found in assets/photos.".toList))
  else
    let dims := fs.photoDims filename
    let drawWidth := pageWidthB
    let drawHeight := dims.2 * (drawWidth / dims.1)
    let maxHeight : ℚ := 5.5 * inchQ
    let scaled :=
      if drawHeight > maxHeight then
        (drawWidth * (maxHeight / drawHeight), maxHeight)
      else (drawWidth, drawHeight)
    .ok ((if addTopSpace then [Flowable.spacer 14] else []) ++
      [Flowable.image filename scaled.1 scaled.2] ++
      (match caption with
       | some cap =>
         if cap.isEmpty then []
         else [Flowable.spacer 6, Flowable.para (escape cap) "Caption".toList]
       | none => []) ++
      [Flowable.spacer 16])

/-- A `for idx in range(a, b)` loop appending one flowable per paragraph. -/
def rangeFlow (ps : List Text) (a b : Nat) (f : Text → Flowable) :
    Except PyErr (List Flowable) :=
  (List.range' a (b - a)).mapM (fun i => (pyGet ps i).map f)

/-- The Synopsis loop of `build_catalogue` (lines 252-261): each paragraph,
with photos 04/05/06/09 interleaved after the 1st, 2nd, 3rd and 5th. -/
def synopsisSection (fs : BuildFS) (ps : List Text) (syn aa : Nat) :
    Except PyErr (List Flowable) :=
  ((List.range' (syn + 1) (aa - (syn + 1))).mapM (fun i => do
    let t ← pyGet ps i
    let base := [Flowable.para (escape t) "Body".toList]
    if i = syn + 1 then
      return base ++ (← image_with_caption fs "photo04.jpeg".toList
        (some (captionOf "photo04.jpeg".toList)) true)
    else if i = syn + 2 then
      return base ++ (← image_with_caption fs "photo05.jpeg".toList
        (some (captionOf "photo05.jpeg".toList)) true)
    else if i = syn + 3 then
      return base ++ (← image_with_caption fs "photo06.jpeg".toList
        (some (captionOf "photo06.jpeg".toList)) true)
    else if i = syn + 5 then
      return base ++ (← image_with_caption fs "photo09.png".toList
        (some (captionOf "photo09.png".toList)) true)
    else
      return base)).map List.flatten

/-- The Artistic Approach loop of `build_catalogue` (lines 266-271): photos
10 and 12 after offsets 0 and 2. -/
def artisticSection (fs : BuildFS) (ps : List Text) (aa dn : Nat) :
    Except PyErr (List Flowable) :=
  ((List.range (dn - (aa + 1))).mapM (fun offset => do
    let t ← pyGet ps (aa + 1 + offset)
    let base := [Flowable.para (escape t) "Body".toList]
    if offset = 0 then
      return base ++ (← image_with_caption fs "photo10.png".toList
        (some (captionOf "photo10.png".toList)) true)
    else if offset = 2 then
      return base ++ (← image_with_caption fs "photo12.png".toList
        (some (captionOf "photo12.png".toList)) true)
    else
      return base)).map List.flatten

/-- The Filmography sub-headers (line 310). -/
def filmographySubheaders : List Text :=
  ["Writer and Director".toList, "Festivals".toList, "Awards".toList,
   "TV Broadcast".toList]

/-- ReportLab link markup of line 326. -/
def linkMarkup (t : Text) : Text :=
  "<link href=\"".toList ++ t ++ "\">".toList ++ escape t ++ "</link>".toList

/-- The result of a successful `build_catalogue` run: the PDF written at the
fixed output path with the assembled story. -/
structure BuildOutput where
  pdfPath : Text
  story : List Flowable
deriving DecidableEq

/-- `Except.isOk` as a plain function. -/
def isOkE {ε α : Type} : Except ε α → Bool
  | .ok _ => true
  | .error _ => false

/-- The body of `build_catalog.build_catalogue` (lines 39-352) up to the
`doc.build` call: existence checks, the stripped non-empty paragraphs, the
heading `index`, and the story assembled section by section. -/
def build_catalogue_story (fs : BuildFS) : Except PyErr (List Flowable) := do
  if fs.docxExists = false then
    throw (PyErr.fileNotFound "main-content.docx not found.".toList)
  if fs.photosDirExists = false then
    throw (PyErr.fileNotFound "Expected images in assets/photos directory.".toList)
  let paragraphs := (fs.docxParagraphs.map pyStrip).filter (fun p => !p.isEmpty)
  let index ← buildIndex paragraphs catalogHeadings
  let gi := indexOf index "General information:".toList
  let contact := indexOf index "Contact:".toList
  let logline := indexOf index "Logline".toList
  let synopsis := indexOf index "Synopsis".toList
  let artistic := indexOf index "Artistic Approach".toList
  let directors := indexOf index "Director's Notes".toList
  let producers := indexOf index "Producer’s Note".toList
  let finance := indexOf index "Finance Plan".toList
  let outlook := indexOf index "Outlook & Distribution".toList
  let biography := indexOf index "Biography:".toList
  let filmography := indexOf index "Filmography:".toList
  let links := indexOf index "Links to Previous movie:".toList
  let cover ← image_with_caption fs "photo01.png".toList
    (some (captionOf "photo01.png".toList)) false
  let metaPart ← rangeFlow paragraphs 2 gi (fun t =>
    if pyEndsWithColon t then
      .para ("<b>".toList ++ escape t ++ "</b>".toList) "Meta".toList
    else .para (escape t) "Meta".toList)
  let giHead ← pyGet paragraphs gi
  let giPart ← rangeFlow paragraphs (gi + 1) contact
    (fun t => .para (format_label_value t) "Info".toList)
  let ctHead ← pyGet paragraphs contact
  let ctPart ← rangeFlow paragraphs (contact + 1) logline
    (fun t => .para (escape t) "Body".toList)
  let img02 ← image_with_caption fs "photo02.jpeg".toList
    (some (captionOf "photo02.jpeg".toList)) true
  let llHead ← pyGet paragraphs logline
  let llBody ← pyGet paragraphs (logline + 1)
  let img03 ← image_with_caption fs "photo03.png".toList
    (some (captionOf "photo03.png".toList)) true
  let synHead ← pyGet paragraphs synopsis
  let synPart ← synopsisSection fs paragraphs synopsis artistic
  let aaHead ← pyGet paragraphs artistic
  let aaPart ← artisticSection fs paragraphs artistic directors
  let dnHead ← pyGet paragraphs directors
  let dnPart ← rangeFlow paragraphs (directors + 1) producers
    (fun t => .para (escape t) "Body".toList)
  let pnHead ← pyGet paragraphs producers
  let pnPart ← rangeFlow paragraphs (producers + 1) finance
    (fun t => .para (escape t) "Body".toList)
  let fpHead ← pyGet paragraphs finance
  let fpPart ← rangeFlow paragraphs (finance + 1) outlook
    (fun t => .para (escape t) "Body".toList)
  let odHead ← pyGet paragraphs outlook
  let odPart ← rangeFlow paragraphs (outlook + 1) biography
    (fun t => .para (escape t) "Body".toList)
  let bioHead ← pyGet paragraphs biography
  let img13 ← image_with_caption fs "photo13.jpeg".toList
    (some (captionOf "photo13.jpeg".toList)) true
  let bioPart ← rangeFlow paragraphs (biography + 1) filmography
    (fun t => .para (escape t) "Body".toList)
  let fgHead ← pyGet paragraphs filmography
  let fgPart ← rangeFlow paragraphs (filmography + 1) links (fun t =>
    if pyInList t filmographySubheaders then .para (escape t) "SubHeader".toList
    else .para (escape t) "Body".toList)
  let lkHead ← pyGet paragraphs links
  let lkPart ← rangeFlow paragraphs (links + 1) paragraphs.length (fun t =>
    if pyEndsWithColon t then .para (escape t) "SubHeader".toList
    else if "http".toList.isPrefixOf t then .para (linkMarkup t) "Body".toList
    else .para (escape t) "Body".toList)
  .ok (cover ++ metaPart ++ [.spacer 12] ++
      [.sectionHeader giHead, .spacer 6] ++ giPart ++
      [.spacer 10, .sectionHeader ctHead, .spacer 6] ++ ctPart ++ img02 ++
      [.sectionHeader llHead, .spacer 6, .para (escape llBody) "Body".toList] ++
      img03 ++
      [.sectionHeader synHead, .spacer 6] ++ synPart ++
      [.sectionHeader aaHead, .spacer 6] ++ aaPart ++
      [.sectionHeader dnHead, .spacer 6] ++ dnPart ++
      [.sectionHeader pnHead, .spacer 6] ++ pnPart ++
      [.sectionHeader fpHead, .spacer 6] ++ fpPart ++
      [.sectionHeader odHead, .spacer 6] ++ odPart ++
      [.sectionHeader bioHead, .spacer 6] ++ img13 ++ bioPart ++
      [.sectionHeader fgHead, .spacer 6] ++ fgPart ++
      [.sectionHeader lkHead, .spacer 6] ++ lkPart)

/-- `build_catalog.build_catalogue`: the story is written as one PDF at the
fixed path `stateless-as-wind-cataloge.pdf` (line 84). -/
def build_catalogue (fs : BuildFS) : Except PyErr BuildOutput :=
  (build_catalogue_story fs).map
    (fun story => ⟨"stateless-as-wind-cataloge.pdf".toList, story⟩)

/-! ### `restructure_original_title.main` and the fixed output paths -/

/-- The result of a successful `restructure_original_title.main` run: the PDF
written at the fixed `OUTPUT_PDF` path from the parsed content (the ReportLab
layout of `make_cover_story`/`build_story` is abstracted to the parse
results the story is built from). -/
structure RestructOutput where
  pdfPath : Text
  coverLines : List Text
  secs : List (Text × List Text)

/-- `restructure_original_title.main` (lines 758-794): raise
`FileNotFoundError` when `Original title.docx` is missing, before anything
else; otherwise parse the document lines and build the PDF at `OUTPUT_PDF`. -/
def restructure_main (docxExists : Bool) (docxLines : List Text) :
    Except PyErr RestructOutput :=
  if docxExists = false then
    .error (.fileNotFound "Missing source document: Original title.docx".toList)
  else
    let st := parse_content_rst docxLines
    .ok ⟨"Original title.pdf".toList, st.cover, st.secs⟩

/-- `generate_stateless_catalog_v2.OUTPUT_PDF` (line 43). -/
def v2_output_pdf : Text := "stateless-as-wind-cataloge-v2.pdf".toList

/-- `generate_original_title_pdf.OUTPUT_PDF` (line 43). -/
def got_output_pdf : Text := "Original title.pdf".toList

/-! ### `final_catalog.py`: `get_image_dimensions` and `create_catalog` -/

/-- `final_catalog.get_image_dimensions` (lines 58-75): scale `(w, h)` to fit
`max_width × max_height` preserving aspect ratio; any failure (the image does
not open, or a zero dimension makes a division raise) falls back to
4 × 3 inches. -/
def get_image_dimensions (opened : Option (ℚ × ℚ)) (maxW maxH : ℚ) : ℚ × ℚ :=
  match opened with
  | none => (4 * inchQ, 3 * inchQ)
  | some (w, h) =>
    if h = 0 then (4 * inchQ, 3 * inchQ)
    else
      let aspect := w / h
      if w > maxW ∧ aspect = 0 then (4 * inchQ, 3 * inchQ)
      else
        let p := if w > maxW then (maxW, maxW / aspect) else (w, h)
        if p.2 > maxH then (maxH * aspect, maxH) else p

/-- The `section_keywords` list of `create_catalog` (lines 192-194). -/
def sectionKeywords : List Text :=
  ["title".toList, "director".toList, "writer".toList, "producer".toList,
   "production".toList, "cinematographer".toList, "synopsis".toList,
   "story".toList, "plot".toList, "cast".toList, "crew".toList,
   "credits".toList, "festival".toList, "award".toList, "review".toList,
   "biography".toList, "bio".toList]

/-- The image-placement keywords of line 224. -/
def addKeywords : List Text :=
  ["synopsis".toList, "story".toList, "plot".toList, "description".toList]

/-- `any(keyword in text_lower for keyword in kws)`. -/
def anyKw (kws : List Text) (lower : Text) : Bool :=
  kws.any (fun k => pyIn k lower)

/-- The `should_add` decision of lines 222-229, with the post-increment
content index `ci`: a synopsis-like keyword in the paragraph, or every 12th
paragraph past the 10th, or five paragraphs before the end. -/
def shouldAddImage (lower : Text) (ci : Nat) (total : Nat) : Bool :=
  if anyKw addKeywords lower then true
  else if ci % 12 = 0 ∧ ci > 10 then true
  else if ci = total - 5 then true
  else false

/-- The inputs of `create_catalog`: the non-blank paragraphs of
`main-content.docx`, the images extracted from `photos.docx` with their
descriptions, the logo, and oracles for the fallible image operations
(`PIL` open/measure, ReportLab image insertion). -/
structure FinalFS where
  mainContent : List Text
  images : List (Text × Text)
  logoExists : Bool
  logoLoads : Bool
  imgOpen : Text → Option (ℚ × ℚ)
  addOk : Text → Bool

/-- `regular_images = images_with_desc[:-1] if len(images_with_desc) > 1
else []` (line 92). -/
def regularImages (images : List (Text × Text)) : List (Text × Text) :=
  if images.length > 1 then images.dropLast else []

/-- `biography_image = images_with_desc[-1] if images_with_desc else
(None, "")` (line 91), the `None` path modelled by the empty name. -/
def biographyImage (images : List (Text × Text)) : Text × Text :=
  images.getLast?.getD ([], [])

/-- The state of the `create_catalog` content loop: `content_index`,
`image_index`, the story built so far, and (as instrumentation for stating
the distribution property) the list of image indices whose insertion has
been attempted. -/
structure CatState where
  contentIndex : Nat
  imageIndex : Nat
  story : List Flowable
  attempts : List Nat

/-- One iteration of the `while content_index < len(main_content)` loop
(lines 196-254): emit the paragraph (as heading when the position or the
text says so), advance `content_index`, and when an image is due and
remaining attempt to insert the next regular image — `image_index` advances
whether the insertion succeeds or raises — then the every-5th spacer. -/
def contentStep (fs : FinalFS) (reg : List (Text × Text)) (s : CatState) :
    CatState :=
  let text := (fs.mainContent.get? s.contentIndex).getD []
  let lower := pyLower text
  let isHeading :=
    if s.contentIndex < 10 then true
    else if anyKw sectionKeywords lower then true
    else if text.length < 70 &&
        (pyIsUpper text || pyIn [':'] text || pyEndsWithColon text) then true
    else false
  let story1 := s.story ++
    [if isHeading then Flowable.para text "SectionHeading".toList
     else Flowable.para text "Body".toList]
  let ci := s.contentIndex + 1
  let attempted :=
    decide (s.imageIndex < reg.length) &&
      shouldAddImage lower ci fs.mainContent.length
  let img := (reg.get? s.imageIndex).getD ([], [])
  let story2 :=
    if attempted then
      if fs.addOk img.1 then
        let dims := get_image_dimensions (fs.imgOpen img.1) (5.5 * inchQ) (7 * inchQ)
        story1 ++ [Flowable.spacer (0.25 * inchQ),
          Flowable.image img.1 dims.1 dims.2] ++
          (if !img.2.isEmpty && !(pyStrip img.2).isEmpty then
            [Flowable.spacer (0.1 * inchQ),
             Flowable.para img.2 "ImageDesc".toList]
          else []) ++
          [Flowable.spacer (0.25 * inchQ)]
      else story1
    else story1
  let story3 :=
    if ci % 5 = 0 then story2 ++ [Flowable.spacer (0.05 * inchQ)] else story2
  { contentIndex := ci,
    imageIndex := if attempted then s.imageIndex + 1 else s.imageIndex,
    story := story3,
    attempts := s.attempts ++ (if attempted then [s.imageIndex] else []) }

/-- The content loop of `create_catalog`. -/
def contentLoop (fs : FinalFS) (reg : List (Text × Text)) (s : CatState) :
    CatState :=
  if s.contentIndex < fs.mainContent.length then
    contentLoop fs reg (contentStep fs reg s)
  else s
termination_by fs.mainContent.length - s.contentIndex
decreasing_by
  have hci : (contentStep fs reg s).contentIndex = s.contentIndex + 1 := rfl
  omega

/-- One iteration of the `while image_index < len(regular_images)` drain
loop (lines 257-273): the leading spacer is appended before the image is
constructed, so it stays in the story even when the insertion raises;
`image_index` advances either way. -/
def drainStep (fs : FinalFS) (reg : List (Text × Text)) (s : CatState) :
    CatState :=
  let img := (reg.get? s.imageIndex).getD ([], [])
  let base := s.story ++ [Flowable.spacer (0.3 * inchQ)]
  let story2 :=
    if fs.addOk img.1 then
      let dims := get_image_dimensions (fs.imgOpen img.1) (5.5 * inchQ) (7 * inchQ)
      base ++ [Flowable.image img.1 dims.1 dims.2] ++
        (if !img.2.isEmpty && !(pyStrip img.2).isEmpty then
          [Flowable.spacer (0.1 * inchQ), Flowable.para img.2 "ImageDesc".toList]
        else []) ++
        [Flowable.spacer (0.25 * inchQ)]
    else base
  { s with
    imageIndex := s.imageIndex + 1,
    story := story2,
    attempts := s.attempts ++ [s.imageIndex] }

/-- The drain loop of `create_catalog`. -/
def drainLoop (fs : FinalFS) (reg : List (Text × Text)) (s : CatState) :
    CatState :=
  if s.imageIndex < reg.length then drainLoop fs reg (drainStep fs reg s)
  else s
termination_by reg.length - s.imageIndex
decreasing_by
  have hii : (drainStep fs reg s).imageIndex = s.imageIndex + 1 := rfl
  omega

/-- Fuel-indexed run of the content loop (`none` = fuel exhausted while the
loop guard still holds), used to state termination. -/
def runContentFuel (fs : FinalFS) (reg : List (Text × Text)) :
    Nat → CatState → Option CatState
  | 0, s =>
    if s.contentIndex < fs.mainContent.length then none else some s
  | n + 1, s =>
    if s.contentIndex < fs.mainContent.length then
      runContentFuel fs reg n (contentStep fs reg s)
    else some s

/-- Fuel-indexed run of the drain loop. -/
def runDrainFuel (fs : FinalFS) (reg : List (Text × Text)) :
    Nat → CatState → Option CatState
  | 0, s => if s.imageIndex < reg.length then none else some s
  | n + 1, s =>
    if s.imageIndex < reg.length then
      runDrainFuel fs reg n (drainStep fs reg s)
    else some s

/-- The title page of `create_catalog` (lines 151-179): leading spacer, the
logo when it exists and loads, the title (shortened when overlong) and the
subtitle when short enough. -/
def titlePage (fs : FinalFS) : List Flowable :=
  [Flowable.spacer (1 * inchQ)] ++
  (if fs.logoExists then
    if fs.logoLoads then
      [Flowable.image "LOGO.jpg".toList (2.5 * inchQ) (2.5 * inchQ),
       Flowable.spacer (0.4 * inchQ)]
    else []
  else []) ++
  (match fs.mainContent with
   | [] => []
   | t0 :: rest =>
     let titleText := if t0.length < 120 then t0 else "Film Catalog".toList
     [Flowable.para titleText "Title".toList] ++
     (match rest with
      | [] => []
      | t1 :: _ =>
        if t1.length < 150 then [Flowable.para t1 "Subtitle".toList] else []))

/-- The biography text scan of lines 305-314: from the first paragraph
mentioning a biography keyword, the following paragraphs of a 14-wide window
up to the next heading-like paragraph. -/
def bioText (mc : List Text) : List Flowable :=
  match mc.findIdx? (fun t =>
      pyIn "biography".toList (pyLower t) || pyIn "bio".toList (pyLower t)) with
  | none => []
  | some i =>
    (((mc.drop (i + 1)).take (min (i + 15) mc.length - (i + 1))).takeWhile
      (fun t => !(anyKw sectionKeywords (pyLower t) && decide (t.length < 80)))).map
      (fun t => Flowable.para t "Body".toList)

/-- The biography section of `create_catalog` (lines 276-314). -/
def bioSection (fs : FinalFS) : List Flowable :=
  [Flowable.pageBreak, Flowable.para "Biography".toList "BioHeading".toList] ++
  (let bio := biographyImage fs.images
   if !bio.1.isEmpty then
     if fs.addOk bio.1 then
       let dims := get_image_dimensions (fs.imgOpen bio.1) (5 * inchQ) (6 * inchQ)
       [Flowable.spacer (0.2 * inchQ), Flowable.image bio.1 dims.1 dims.2] ++
       (if !bio.2.isEmpty && !(pyStrip bio.2).isEmpty then
         [Flowable.spacer (0.15 * inchQ), Flowable.para bio.2 "ImageDesc".toList]
       else []) ++
       [Flowable.spacer (0.3 * inchQ)]
     else []
   else []) ++
  bioText fs.mainContent

/-- `final_catalog.create_catalog` (lines 77-326): title page, page break,
the content loop interleaving regular images, the drain loop for the
remaining images, the biography section, and one PDF written at the fixed
path `catalog.pdf` (line 95). -/
def create_catalog (fs : FinalFS) : Text × List Flowable :=
  let reg := regularImages fs.images
  let s0 : CatState := ⟨0, 0, titlePage fs ++ [Flowable.pageBreak], []⟩
  let s1 := contentLoop fs reg s0
  let s2 := drainLoop fs reg s1
  ("catalog.pdf".toList, s2.story ++ bioSection fs)

/-! ### `generate_original_title_pdf.py`: `make_image_flowable` and
`prepare_rtl` -/

/-- `generate_original_title_pdf.make_image_flowable` (lines 436-458):
`none` when the file is missing, unreadable or has a non-positive dimension;
otherwise the source dimensions scaled by
`min(max_width/width, max_height/height, 1.0)`. -/
def make_image_flowable (pathExists : Bool) (readDims : Option (ℚ × ℚ))
    (maxW maxH : ℚ) : Option (ℚ × ℚ) :=
  if !pathExists then none
  else
    match readDims with
    | none => none
    | some (w, h) =>
      if w ≤ 0 ∨ h ≤ 0 then none
      else
        let scale := min (min (maxW / w) (maxH / h)) 1
        some (w * scale, h * scale)

/-- `generate_original_title_pdf.prepare_rtl` (lines 76-83): `reshape`
models `arabic_reshaper.reshape` composed with `get_display`, returning
`none` when either raises; the `except` branch returns the input text
unchanged. -/
def prepare_rtl (reshape : Text → Option Text) (text : Text) : Text :=
  match reshape text with
  | some r => r
  | none => text

/-- A concrete file system on which `build_catalogue` succeeds: a document
holding all twelve headings with content lines, and every photo present. -/
def witnessBuildFS : BuildFS :=
  { docxExists := true
    docxParagraphs :=
      ["Stateless as Wind".toList,
       "Autobiographical Documentary".toList,
       "Original title:".toList,
       "General information:".toList,
       "Genre: Documentary".toList,
       "Contact:".toList,
       "contact at example dot com".toList,
       "Logline".toList,
       "A poetic journey.".toList,
       "Synopsis".toList,
       "Part one.".toList,
       "Artistic Approach".toList,
       "Visual style.".toList,
       "Director's Notes".toList,
       "Note text.".toList,
       "Producer’s Note".toList,
       "Producer text.".toList,
       "Finance Plan".toList,
       "Budget.".toList,
       "Outlook & Distribution".toList,
       "Festivals plan.".toList,
       "Biography:".toList,
       "Born in Tehran.".toList,
       "Filmography:".toList,
       "Festivals".toList,
       "Links to Previous movie:".toList,
       "Trailer:".toList,
       "http://example.com".toList]
    photosDirExists := true
    photoFiles :=
      ["photo01.png".toList, "photo02.jpeg".toList, "photo03.png".toList,
       "photo04.jpeg".toList, "photo05.jpeg".toList, "photo06.jpeg".toList,
       "photo09.png".toList, "photo10.png".toList, "photo12.png".toList,
       "photo13.jpeg".toList]
    photoDims := fun _ => (100, 100) }

/-! Supporting lemmas for the colon split. -/

theorem pyIn_single_iff (c : Char) (t : Text) : pyIn [c] t = true ↔ c ∈ t := by
  induction t with
  | nil => simp [pyIn]
  | cons a t ih =>
    simp only [pyIn, List.isPrefixOf, Bool.or_eq_true, ih, List.mem_cons]
    constructor
    · rintro (h | h)
      · left
        have : (c == a) = true := by
          cases hca : (c == a) with
          | true => rfl
          | false => simp [hca] at h
        exact beq_iff_eq.mp this
      · right; exact h
    · rintro (rfl | h)
      · left; simp
      · right; exact h

theorem takeWhile_dropWhile_colon (t : Text) (h : ':' ∈ t) :
    t.takeWhile (fun c => c ≠ ':') ++ ':' :: (t.dropWhile (fun c => c ≠ ':')).tail = t ∧
      ':' ∉ t.takeWhile (fun c => c ≠ ':') := by
  induction t with
  | nil => cases h
  | cons a t ih =>
    by_cases ha : a = ':'
    · subst ha
      simp [List.takeWhile, List.dropWhile]
    · have h' : ':' ∈ t := by
        rcases List.mem_cons.mp h with h1 | h1
        · exact absurd h1.symm ha
        · exact h1
      have := ih h'
      constructor
      · simpa [List.takeWhile_cons, List.dropWhile_cons, ha] using this.1
      · intro hmem
        have hmem' : ':' ∈ a :: t.takeWhile (fun c => c ≠ ':') := by
          simpa [List.takeWhile_cons, ha] using hmem
        rcases List.mem_cons.mp hmem' with h1 | h1
        · exact ha h1.symm
        · exact this.2 h1

/-! Supporting lemmas for paragraph coalescing. -/

theorem coalesceAux_eq (ls : List Text) : ∀ buffer : List Text,
    coalesceAux buffer ls =
      if buffer.isEmpty then runsSpec ls
      else joinSpaces (buffer ++ (ls.takeWhile nonBlank).map pyStrip) ::
        runsSpec (ls.dropWhile nonBlank) := by
  induction ls with
  | nil =>
    intro buffer
    cases buffer with
    | nil => simp [coalesceAux, runsSpec]
    | cons b bs => simp [coalesceAux, runsSpec]
  | cons l rest ih =>
    intro buffer
    by_cases hl : (pyStrip l).isEmpty
    · have hnb : nonBlank l = false := by simp [nonBlank, hl]
      cases buffer with
      | nil =>
        simp [coalesceAux, hl, runsSpec, hnb, ih]
      | cons b bs =>
        simp [coalesceAux, hl, runsSpec, hnb, ih, List.dropWhile_cons,
          List.takeWhile_cons]
    · have hnb : nonBlank l = true := by simp [nonBlank, hl]
      have ihb := ih (buffer ++ [pyStrip l])
      have hne : (buffer ++ [pyStrip l]).isEmpty = false := by simp
      rw [hne] at ihb
      simp only [Bool.false_eq_true, if_false] at ihb
      cases buffer with
      | nil =>
        have ihb' : coalesceAux [pyStrip l] rest =
            joinSpaces (pyStrip l :: (rest.takeWhile nonBlank).map pyStrip) ::
              runsSpec (rest.dropWhile nonBlank) := by
          simpa using ihb
        simp [coalesceAux, hl, runsSpec, hnb, ihb', List.dropWhile_cons,
          List.takeWhile_cons]
      | cons b bs =>
        have ihb' : coalesceAux (b :: (bs ++ [pyStrip l])) rest =
            joinSpaces (b :: (bs ++ pyStrip l ::
              (rest.takeWhile nonBlank).map pyStrip)) ::
              runsSpec (rest.dropWhile nonBlank) := by
          simpa [List.append_assoc] using ihb
        simp [coalesceAux, hl, runsSpec, hnb, ihb', List.dropWhile_cons,
          List.takeWhile_cons]

theorem intercalate_cons_ne_nil (s a : Text) (r : List Text) (ha : a ≠ []) :
    List.intercalate s (a :: r) ≠ [] := by
  cases r with
  | nil => simpa [List.intercalate] using ha
  | cons b r' =>
    simp only [List.intercalate, List.intersperse, List.flatten]
    intro h
    rcases List.append_eq_nil.mp h with ⟨h1, _⟩
    exact ha h1

theorem runsSpec_ne_nil (ls : List Text) : ∀ p ∈ runsSpec ls, p ≠ [] := by
  induction ls using runsSpec.induct with
  | case1 => simp [runsSpec]
  | case2 line rest hnb ih =>
    intro p hp
    rw [runsSpec, if_pos hnb] at hp
    rcases List.mem_cons.mp hp with h | h
    · subst h
      apply intercalate_cons_ne_nil
      simpa [nonBlank, List.isEmpty_iff] using hnb
    · exact ih p h
  | case3 line rest hnb ih =>
    intro p hp
    rw [runsSpec, if_neg hnb] at hp
    exact ih p hp

/-! ### Claim C2 -/

/-- C2: for every input string, `format_label_value` bolds the label exactly
when the string contains a colon: if a colon occurs, the result is
`"<b>" ++ escape label ++ ":</b> " ++ escape value` where `label` is the text
before the first colon with surrounding whitespace stripped and `value` is the
text after the first colon with leading whitespace removed; otherwise the
result is `escape` of the whole string. -/
theorem C2_format_label_value (t : Text) :
    (pyIn [':'] t = true →
      ∃ pre post, t = pre ++ ':' :: post ∧ ':' ∉ pre ∧
        format_label_value t =
          "<b>".toList ++ escape (pyStrip pre) ++ ":</b> ".toList ++
            escape (pyLStrip post)) ∧
    (pyIn [':'] t = false → format_label_value t = escape t) := by
  constructor
  · intro h
    have hmem : ':' ∈ t := (pyIn_single_iff ':' t).mp h
    refine ⟨t.takeWhile (fun c => c ≠ ':'), (t.dropWhile (fun c => c ≠ ':')).tail,
      (takeWhile_dropWhile_colon t hmem).1.symm,
      (takeWhile_dropWhile_colon t hmem).2, ?_⟩
    rw [format_label_value, if_pos h]
  · intro h
    rw [format_label_value, if_neg (by simp [h])]

/-- Witness for C2 at the concrete input `"Producer: Jala Film"`. -/
theorem C2_format_label_value_witness :
    pyIn [':'] ("Producer: Jala Film".toList) = true ∧
    ∃ pre post, "Producer: Jala Film".toList = pre ++ ':' :: post ∧ ':' ∉ pre ∧
      format_label_value ("Producer: Jala Film".toList) =
        "<b>".toList ++ escape (pyStrip pre) ++ ":</b> ".toList ++
          escape (pyLStrip post) :=
  ⟨by decide, (C2_format_label_value _).1 (by decide)⟩

/-! ### Claim C9 -/

/-- C9: the three copies of `coalesce_paragraphs` (in
`generate_original_title_pdf.py`, `generate_stateless_catalog_v2.py` and
`restructure_original_title.py`) are extensionally equal, return one string
per maximal run of lines that are non-blank after stripping (each string the
space-join of the stripped lines of the run), and never return an empty
string. -/
theorem C9_coalesce_paragraphs (ls : List Text) :
    coalesce_paragraphs_got ls = coalesce_paragraphs_v2 ls ∧
    coalesce_paragraphs_v2 ls = coalesce_paragraphs_rst ls ∧
    coalesce_paragraphs_got ls = runsSpec ls ∧
    ∀ p ∈ coalesce_paragraphs_got ls, p ≠ [] := by
  have hchar : coalesce_paragraphs_got ls = runsSpec ls := by
    rw [coalesce_paragraphs_got]
    simpa using coalesceAux_eq ls []
  exact ⟨rfl, rfl, hchar, fun p hp => runsSpec_ne_nil ls p (hchar ▸ hp)⟩

/-- Witness for C9 at a concrete three-line input. -/
theorem C9_coalesce_paragraphs_witness :
    "a b".toList ∈ coalesce_paragraphs_got ["  a ".toList, " b".toList, "".toList] ∧
    "a b".toList ≠ [] :=
  ⟨by decide,
    (C9_coalesce_paragraphs ["  a ".toList, " b".toList, "".toList]).2.2.2 _ (by decide)⟩

/-! Supporting lemmas for the section parsers. -/

theorem updateSec_keys (m : List (Text × List Text)) (k : Text) (v : Text) :
    (updateSec m k v).map Prod.fst = m.map Prod.fst := by
  induction m with
  | nil => rfl
  | cons e rest ih =>
    obtain ⟨k', vs⟩ := e
    rw [updateSec]
    split
    · simp
    · simpa using ih

theorem lookupSec_updateSec (m : List (Text × List Text)) (k : Text) (v : Text)
    (hk : k ∈ m.map Prod.fst) (c : Text) :
    lookupSec (updateSec m k v) c =
      if c = k then lookupSec m c ++ [v] else lookupSec m c := by
  induction m with
  | nil => simp at hk
  | cons e rest ih =>
    obtain ⟨k', vs⟩ := e
    by_cases hkk : k' = k
    · subst hkk
      rw [updateSec, if_pos rfl]
      by_cases hck : c = k'
      · subst hck
        simp [lookupSec]
      · have hck' : ¬k' = c := fun h => hck h.symm
        simp [lookupSec, hck, hck']
    · rw [updateSec, if_neg hkk]
      have hk' : k ∈ rest.map Prod.fst := by
        simp only [List.map_cons, List.mem_cons] at hk
        rcases hk with h | h
        · exact absurd h.symm hkk
        · exact h
      by_cases hck : k' = c
      · have hcknew : ¬c = k := fun h => hkk (hck.trans h)
        simp [lookupSec, hck, hcknew]
      · simp [lookupSec, hck, ih hk']

theorem lookupSec_seedSecsAux (cs : List Text) :
    ∀ seen c, lookupSec (seedSecsAux seen cs) c = [] := by
  induction cs with
  | nil => intro seen c; rfl
  | cons c' rest ih =>
    intro seen c
    rw [seedSecsAux]
    split
    · exact ih seen c
    · rw [lookupSec]
      split
      · rfl
      · exact ih (seen ++ [c']) c

theorem lookupSec_seedSecs (cs : List Text) (c : Text) :
    lookupSec (seedSecs cs) c = [] :=
  lookupSec_seedSecsAux cs [] c

theorem mem_seedSecsAux_keys (cs : List Text) :
    ∀ seen c, c ∈ cs → pyInList c seen = false →
      c ∈ (seedSecsAux seen cs).map Prod.fst := by
  induction cs with
  | nil => intro seen c h; cases h
  | cons c' rest ih =>
    intro seen c h hseen
    rw [seedSecsAux]
    by_cases hin : pyInList c' seen = true
    · rw [if_pos hin]
      rcases List.mem_cons.mp h with h1 | h1
      · subst h1; exact absurd hin (by simp [hseen])
      · exact ih seen c h1 hseen
    · rw [if_neg hin]
      by_cases hcc : c = c'
      · subst hcc
        simp
      · rcases List.mem_cons.mp h with h1 | h1
        · exact absurd h1 hcc
        · have hseen' : pyInList c (seen ++ [c']) = false := by
            simp only [pyInList, List.any_append, Bool.or_eq_false_iff]
            refine ⟨by simpa [pyInList] using hseen,
              by simpa using (fun h : c' = c => hcc h.symm)⟩
          simpa using Or.inr (ih (seen ++ [c']) c h1 hseen')

theorem mem_seedSecs_keys (cs : List Text) (c : Text) (h : c ∈ cs) :
    c ∈ (seedSecs cs).map Prod.fst :=
  mem_seedSecsAux_keys cs [] c h rfl

theorem govern_concat (sd : Bool) (hOf : Text → Option Text) (ls : List Text)
    (l : Text) :
    govern sd hOf (ls ++ [l]) =
      (match headingSel sd hOf l with
       | some c => some c
       | none => govern sd hOf ls) := by
  rw [govern, List.filterMap_append]
  cases h : headingSel sd hOf l with
  | none => simp [h, govern, List.filterMap]
  | some c => simp [h, List.filterMap, List.getLast?_concat]

theorem govern_mem (sd : Bool) (hOf : Text → Option Text) (ls : List Text)
    (c : Text) (h : govern sd hOf ls = some c) : ∃ s, hOf s = some c := by
  have hmem : c ∈ ls.filterMap (headingSel sd hOf) :=
    List.mem_of_mem_getLast? h
  obtain ⟨raw, _, hsel⟩ := List.mem_filterMap.mp hmem
  rw [headingSel] at hsel
  by_cases h1 : (pyStrip raw).isEmpty
  · simp [h1] at hsel
  · by_cases h2 : (sd && pyIsDigit (pyStrip raw)) = true
    · simp [h1, h2] at hsel
    · refine ⟨pyStrip raw, ?_⟩
      simpa [h1, h2] using hsel

theorem enum_concat (ls : List Text) (l : Text) :
    (ls ++ [l]).enum = ls.enum ++ [(ls.length, l)] := by
  simp [List.enum_append, List.enumFrom]

theorem specSection_concat (sd : Bool) (hOf : Text → Option Text)
    (ls : List Text) (l : Text) (c : Text) :
    specSection sd hOf (ls ++ [l]) c =
      specSection sd hOf ls c ++
        (match keepVal sd hOf l with
         | none => []
         | some v => if govern sd hOf ls = some c then [v] else []) := by
  rw [specSection, enum_concat, List.filterMap_append]
  congr 1
  · rw [specSection]
    refine List.filterMap_congr (fun p hp => ?_)
    have hlt : p.1 < ls.length := List.fst_lt_of_mem_enum hp
    rw [List.take_append_of_le_length (le_of_lt hlt)]
  · have htake : (ls ++ [l]).take ls.length = ls := by
      rw [List.take_append_of_le_length (le_refl _), List.take_length]
    cases h : keepVal sd hOf l with
    | none => simp [List.filterMap, h, htake]
    | some v =>
      by_cases hg : govern sd hOf ls = some c
      · simp [List.filterMap, h, htake, hg]
      · simp [List.filterMap, h, htake, hg]

theorem specCover_concat (sd : Bool) (hOf : Text → Option Text)
    (ls : List Text) (l : Text) :
    specCover sd hOf (ls ++ [l]) =
      specCover sd hOf ls ++
        (match keepVal sd hOf l with
         | none => []
         | some v => if govern sd hOf ls = none then [v] else []) := by
  rw [specCover, enum_concat, List.filterMap_append]
  congr 1
  · rw [specCover]
    refine List.filterMap_congr (fun p hp => ?_)
    have hlt : p.1 < ls.length := List.fst_lt_of_mem_enum hp
    rw [List.take_append_of_le_length (le_of_lt hlt)]
  · have htake : (ls ++ [l]).take ls.length = ls := by
      rw [List.take_append_of_le_length (le_refl _), List.take_length]
    cases h : keepVal sd hOf l with
    | none => simp [List.filterMap, h, htake]
    | some v =>
      by_cases hg : govern sd hOf ls = none
      · simp [List.filterMap, h, htake, hg]
      · simp [List.filterMap, h, htake, hg]

theorem parse_inv (sd : Bool) (hOf : Text → Option Text) (seed : List Text)
    (H : ∀ s c, hOf s = some c → c ∈ seed) (lines : List Text) :
    (lines.foldl (parseStep sd hOf) (initState seed)).current =
        govern sd hOf lines ∧
    (lines.foldl (parseStep sd hOf) (initState seed)).secs.map Prod.fst =
        (seedSecs seed).map Prod.fst ∧
    (lines.foldl (parseStep sd hOf) (initState seed)).cover =
        specCover sd hOf lines ∧
    ∀ c, lookupSec (lines.foldl (parseStep sd hOf) (initState seed)).secs c =
        specSection sd hOf lines c := by
  induction lines using List.reverseRecOn with
  | nil =>
    refine ⟨rfl, rfl, rfl, fun c => ?_⟩
    show lookupSec (seedSecs seed) c = specSection sd hOf [] c
    rw [lookupSec_seedSecs]
    simp [specSection]
  | append_singleton ls l ih =>
    obtain ⟨ihcur, ihkeys, ihcov, ihsec⟩ := ih
    have hfold : (ls ++ [l]).foldl (parseStep sd hOf) (initState seed) =
        parseStep sd hOf (ls.foldl (parseStep sd hOf) (initState seed)) l := by
      rw [List.foldl_append, List.foldl_cons, List.foldl_nil]
    set st := ls.foldl (parseStep sd hOf) (initState seed) with hst
    by_cases h1 : (pyStrip l).isEmpty
    · -- blank line: the empty string is appended to the current list
      have hsel : headingSel sd hOf l = none := by simp [headingSel, h1]
      have hkeep : keepVal sd hOf l = some [] := by simp [keepVal, h1]
      cases hc : st.current with
      | none =>
        have hgov : govern sd hOf ls = none := by rw [← ihcur, hc]
        have hstep : parseStep sd hOf st l = { st with cover := st.cover ++ [[]] } := by
          simp only [parseStep, h1, if_pos, hc]
        refine ⟨?_, ?_, ?_, fun c => ?_⟩
        · rw [hfold, hstep, govern_concat, hsel, hc, hgov]
        · rw [hfold, hstep]; exact ihkeys
        · rw [hfold, hstep, specCover_concat, hkeep, hgov]
          simp [ihcov]
        · rw [hfold, hstep, specSection_concat, hkeep, hgov]
          simp [ihsec c]
      | some c₀ =>
        have hgov : govern sd hOf ls = some c₀ := by rw [← ihcur, hc]
        have hkmem : c₀ ∈ st.secs.map Prod.fst := by
          obtain ⟨s, hs⟩ := govern_mem sd hOf ls c₀ hgov
          rw [ihkeys]
          exact mem_seedSecs_keys seed c₀ (H s c₀ hs)
        have hstep : parseStep sd hOf st l =
            { st with secs := updateSec st.secs c₀ [] } := by
          simp only [parseStep, h1, if_pos, hc]
        refine ⟨?_, ?_, ?_, fun c => ?_⟩
        · rw [hfold, hstep, govern_concat, hsel, hc, hgov]
        · rw [hfold, hstep]
          simpa [updateSec_keys] using ihkeys
        · rw [hfold, hstep, specCover_concat, hkeep, hgov]
          simp [ihcov]
        · rw [hfold, hstep, specSection_concat, hkeep, hgov]
          rw [lookupSec_updateSec st.secs c₀ [] hkmem c]
          by_cases hcc : c = c₀
          · subst hcc
            simp [ihsec c]
          · have hcc' : ¬(some c₀ = some c) := by
              intro h; exact hcc (Option.some.inj h).symm
            simp [hcc, hcc', ihsec c]
    · by_cases h2 : (sd && pyIsDigit (pyStrip l)) = true
      · -- digit-only line skipped by the v2 parser
        have hsel : headingSel sd hOf l = none := by simp [headingSel, h1, h2]
        have hkeep : keepVal sd hOf l = none := by simp [keepVal, h1, h2]
        have hstep : parseStep sd hOf st l = st := by
          simp only [parseStep, h1, h2]
          simp
        refine ⟨?_, ?_, ?_, fun c => ?_⟩
        · rw [hfold, hstep, govern_concat, hsel, ihcur]
        · rw [hfold, hstep]; exact ihkeys
        · rw [hfold, hstep, specCover_concat, hkeep]
          simp [ihcov]
        · rw [hfold, hstep, specSection_concat, hkeep]
          simp [ihsec c]
      · cases hh : hOf (pyStrip l) with
        | some canon =>
          -- heading line: only the current section changes
          have hsel : headingSel sd hOf l = some canon := by
            simp [headingSel, h1, h2, hh]
          have hkeep : keepVal sd hOf l = none := by simp [keepVal, h1, h2, hh]
          have hstep : parseStep sd hOf st l = { st with current := some canon } := by
            simp only [parseStep, h1, h2, hh]
            simp
          refine ⟨?_, ?_, ?_, fun c => ?_⟩
          · rw [hfold, hstep, govern_concat, hsel]
          · rw [hfold, hstep]; exact ihkeys
          · rw [hfold, hstep, specCover_concat, hkeep]
            simp [ihcov]
          · rw [hfold, hstep, specSection_concat, hkeep]
            simp [ihsec c]
        | none =>
          -- content line: the stripped line is appended to the current list
          have hsel : headingSel sd hOf l = none := by
            simp [headingSel, h1, h2, hh]
          have hkeep : keepVal sd hOf l = some (pyStrip l) := by
            simp [keepVal, h1, h2, hh]
          cases hc : st.current with
          | none =>
            have hgov : govern sd hOf ls = none := by rw [← ihcur, hc]
            have hstep : parseStep sd hOf st l =
                { st with cover := st.cover ++ [pyStrip l] } := by
              simp only [parseStep, h1, h2, hh, hc]
              simp
            refine ⟨?_, ?_, ?_, fun c => ?_⟩
            · rw [hfold, hstep, govern_concat, hsel, hc, hgov]
            · rw [hfold, hstep]; exact ihkeys
            · rw [hfold, hstep, specCover_concat, hkeep, hgov]
              simp [ihcov]
            · rw [hfold, hstep, specSection_concat, hkeep, hgov]
              simp [ihsec c]
          | some c₀ =>
            have hgov : govern sd hOf ls = some c₀ := by rw [← ihcur, hc]
            have hkmem : c₀ ∈ st.secs.map Prod.fst := by
              obtain ⟨s, hs⟩ := govern_mem sd hOf ls c₀ hgov
              rw [ihkeys]
              exact mem_seedSecs_keys seed c₀ (H s c₀ hs)
            have hstep : parseStep sd hOf st l =
                { st with secs := updateSec st.secs c₀ (pyStrip l) } := by
              simp only [parseStep, h1, h2, hh, hc]
              simp
            refine ⟨?_, ?_, ?_, fun c => ?_⟩
            · rw [hfold, hstep, govern_concat, hsel, hc, hgov]
            · rw [hfold, hstep]
              simpa [updateSec_keys] using ihkeys
            · rw [hfold, hstep, specCover_concat, hkeep, hgov]
              simp [ihcov]
            · rw [hfold, hstep, specSection_concat, hkeep, hgov]
              rw [lookupSec_updateSec st.secs c₀ (pyStrip l) hkmem c]
              by_cases hcc : c = c₀
              · subst hcc
                simp [ihsec c]
              · have hcc' : ¬(some c₀ = some c) := by
                  intro h; exact hcc (Option.some.inj h).symm
                simp [hcc, hcc', ihsec c]

theorem assocLookup_mem (m : List (Text × Text)) (key v : Text)
    (h : assocLookup m key = some v) : v ∈ m.map Prod.snd := by
  induction m with
  | nil => simp [assocLookup] at h
  | cons e rest ih =>
    obtain ⟨k', v'⟩ := e
    rw [assocLookup] at h
    by_cases hk : k' = key
    · rw [if_pos hk] at h
      simp [Option.some.inj h]
    · rw [if_neg hk] at h
      simpa using Or.inr (ih h)

theorem scanCandidates_mem (m : List (Text × Text)) (key v : Text)
    (h : scanCandidates m key = some v) : v ∈ m.map Prod.snd := by
  induction m with
  | nil => simp [scanCandidates] at h
  | cons e rest ih =>
    obtain ⟨cand, canon⟩ := e
    rw [scanCandidates] at h
    by_cases hk : pyLower (pyRStripColon cand) = key
    · rw [if_pos hk] at h
      simp [Option.some.inj h]
    · rw [if_neg hk] at h
      simpa using Or.inr (ih h)

/-! ### Claim C1 -/

/-- C1 (amended): for every input list of lines, both section parsers assign
each line to the section selected by the nearest preceding recognised heading
line (to the cover list when no heading precedes it), recording each assigned
line stripped of surrounding whitespace, blank lines as empty strings, with
heading lines excluded, the v2 parser additionally dropping lines consisting
solely of digits, relative order preserved and no line assigned to more than
one section (the assignment is positional, so when the same section is
selected by several heading lines the runs following them are concatenated).
The positional assignment is expressed by `specSection`/`specCover`. -/
theorem C1_parse_content_sections (lines : List Text) :
    ((parse_content_rst lines).cover = specCover false headingOfRst lines ∧
      ∀ c, lookupSec (parse_content_rst lines).secs c =
        specSection false headingOfRst lines c) ∧
    ((parse_content_v2 lines).cover = specCover true headingOfV2 lines ∧
      ∀ c, lookupSec (parse_content_v2 lines).secs c =
        specSection true headingOfV2 lines c) := by
  have hr := parse_inv false headingOfRst (heading_map_rst.map Prod.snd)
    (fun s c h => assocLookup_mem heading_map_rst _ c h) lines
  have hv := parse_inv true headingOfV2 (heading_map_v2.map Prod.snd)
    (fun s c h => scanCandidates_mem heading_map_v2 _ c h) lines
  exact ⟨⟨hr.2.2.1, hr.2.2.2⟩, ⟨hv.2.2.1, hv.2.2.2⟩⟩

/-- C1 counterexample: on the two-line input `["Synopsis", "12"]` the claim,
as stated, predicts that the v2 parser maps the `Synopsis` heading to exactly
the contiguous run of following lines, i.e. `["12"]`; the parser instead
drops the digit-only line and the section is empty. -/
theorem C1_counterexample :
    lookupSec (parse_content_v2 ["Synopsis".toList, "12".toList]).secs
        ("Synopsis".toList) = [] ∧
    lookupSec (parse_content_v2 ["Synopsis".toList, "12".toList]).secs
        ("Synopsis".toList) ≠ ["12".toList] := by
  constructor
  · decide
  · decide

/-! Supporting lemmas for the heading index and the missing-file errors. -/

theorem pyListIndex_error (ps : List Text) (x : Text) (h : x ∉ ps) :
    pyListIndex ps x = .error (.valueError x) := by
  rw [pyListIndex]
  have : ps.findIdx? (fun y => y = x) = none := by
    rw [List.findIdx?_eq_none_iff]
    intro y hy
    simp only [decide_eq_false_iff_not]
    intro hyx
    exact h (hyx ▸ hy)
  rw [this]

theorem pyListIndex_ok (ps : List Text) (x : Text) (h : x ∈ ps) :
    ∃ i, pyListIndex ps x = .ok i := by
  rw [pyListIndex]
  cases hf : ps.findIdx? (fun y => y = x) with
  | some i => exact ⟨i, rfl⟩
  | none =>
    rw [List.findIdx?_eq_none_iff] at hf
    have := hf x h
    simp at this

theorem buildIndex_ok_iff (ps : List Text) (hs : List Text) :
    isOkE (buildIndex ps hs) = true ↔ ∀ h ∈ hs, h ∈ ps := by
  induction hs with
  | nil => simp [buildIndex, isOkE]
  | cons h rest ih =>
    constructor
    · intro hok
      by_cases hmem : h ∈ ps
      · obtain ⟨i, hi⟩ := pyListIndex_ok ps h hmem
        rw [buildIndex] at hok
        cases hbr : buildIndex ps rest with
        | ok m =>
          intro x hx
          rcases List.mem_cons.mp hx with h1 | h1
          · exact h1 ▸ hmem
          · exact (ih.mp (by rw [hbr]; rfl)) x h1
        | error e =>
          rw [hi, hbr] at hok
          simp [bind, Except.bind, isOkE] at hok
      · rw [buildIndex, pyListIndex_error ps h hmem] at hok
        simp [bind, Except.bind, isOkE] at hok
    · intro hall
      obtain ⟨i, hi⟩ := pyListIndex_ok ps h (hall h (List.mem_cons_self h rest))
      have hrest := ih.mpr (fun x hx => hall x (List.mem_cons_of_mem h hx))
      rw [buildIndex, hi]
      cases hbr : buildIndex ps rest with
      | ok m => simp [bind, Except.bind, isOkE]
      | error e => rw [hbr] at hrest; simp [isOkE] at hrest

theorem pyInList_iff (x : Text) (xs : List Text) : pyInList x xs = true ↔ x ∈ xs := by
  simp only [pyInList, List.any_eq_true, decide_eq_true_eq]
  constructor
  · rintro ⟨y, hy, rfl⟩; exact hy
  · intro h; exact ⟨x, h, rfl⟩

theorem buildIndex_error_first (ps hs : List Text) :
    ∀ h, hs.find? (fun x => !pyInList x ps) = some h →
      buildIndex ps hs = .error (.valueError h) := by
  induction hs with
  | nil => intro h hf; simp at hf
  | cons h' rest ih =>
    intro h hf
    by_cases hp : (!pyInList h' ps) = true
    · rw [List.find?_cons_of_pos (p := fun x => !pyInList x ps) rest hp] at hf
      have hh : h = h' := (Option.some.inj hf).symm
      subst hh
      have hmem : h ∉ ps := by
        rw [← pyInList_iff]
        simpa using hp
      rw [buildIndex, pyListIndex_error ps h hmem]
      rfl
    · rw [List.find?_cons_of_neg (p := fun x => !pyInList x ps) rest hp] at hf
      have hmem : h' ∈ ps := by
        rw [← pyInList_iff]
        cases hb : pyInList h' ps with
        | true => rfl
        | false => exact absurd (by simp [hb]) hp
      obtain ⟨i, hi⟩ := pyListIndex_ok ps h' hmem
      rw [buildIndex, hi, ih h hf]
      rfl

/-! ### Claim C3 -/

/-- C3: a missing required input raises before any PDF is built:
`build_catalogue` raises `FileNotFoundError` when `main-content.docx` or the
`assets/photos` directory is missing, `image_with_caption` raises
`FileNotFoundError` for an absent photo, and `restructure_original_title.main`
raises `FileNotFoundError` when `Original title.docx` is missing; in each
case the run result is the error, never a built PDF. -/
theorem C3_missing_file_errors :
    (∀ fs : BuildFS, fs.docxExists = false →
      build_catalogue fs =
        .error (.fileNotFound "main-content.docx not found.".toList)) ∧
    (∀ fs : BuildFS, fs.docxExists = true → fs.photosDirExists = false →
      build_catalogue fs =
        .error (.fileNotFound "Expected images in assets/photos directory.".toList)) ∧
    (∀ (fs : BuildFS) (fn : Text) (cap : Option Text) (ats : Bool),
      pyInList fn fs.photoFiles = false →
      image_with_caption fs fn cap ats =
        .error (.fileNotFound
          ("Image ".toList ++ fn ++ " not found in assets/photos.".toList))) ∧
    (∀ (de : Bool) (ls : List Text), de = false →
      restructure_main de ls =
        .error (.fileNotFound "Missing source document: Original title.docx".toList)) := by
  refine ⟨?_, ?_, ?_, ?_⟩
  · intro fs h
    have hstory : build_catalogue_story fs =
        .error (.fileNotFound "main-content.docx not found.".toList) := by
      rw [build_catalogue_story, if_pos h]
      rfl
    rw [build_catalogue, hstory]
    rfl
  · intro fs h1 h2
    have hstory : build_catalogue_story fs =
        .error (.fileNotFound "Expected images in assets/photos directory.".toList) := by
      rw [build_catalogue_story, if_neg (by simp [h1]), if_pos h2]
      rfl
    rw [build_catalogue, hstory]
    rfl
  · intro fs fn cap ats h
    rw [image_with_caption.eq_def, if_pos (by simp [h])]
  · intro de ls h
    subst h
    rfl

/-- Witness for C3 at concrete file systems with the respective inputs
missing. -/
theorem C3_missing_file_errors_witness :
    build_catalogue ⟨false, [], true, [], fun _ => (1, 1)⟩ =
      .error (.fileNotFound "main-content.docx not found.".toList) ∧
    build_catalogue ⟨true, [], false, [], fun _ => (1, 1)⟩ =
      .error (.fileNotFound "Expected images in assets/photos directory.".toList) ∧
    image_with_caption ⟨true, [], true, [], fun _ => (1, 1)⟩ "photo01.png".toList
        none true =
      .error (.fileNotFound
        ("Image ".toList ++ "photo01.png".toList ++
          " not found in assets/photos.".toList)) ∧
    restructure_main false [] =
      .error (.fileNotFound "Missing source document: Original title.docx".toList) :=
  ⟨C3_missing_file_errors.1 _ rfl,
   C3_missing_file_errors.2.1 _ rfl rfl,
   C3_missing_file_errors.2.2.1 _ _ none true (by decide),
   C3_missing_file_errors.2.2.2 false [] rfl⟩

/-! ### Claim C5 -/

/-- C5: the heading text must appear verbatim among the stripped non-empty
paragraphs: the `index` comprehension over the twelve heading strings is well
defined exactly when each occurs, its construction raises `ValueError` at the
first absent heading, and that error aborts `build_catalogue`. -/
theorem C5_heading_index (ps : List Text) :
    (isOkE (buildIndex ps catalogHeadings) = true ↔
      ∀ h ∈ catalogHeadings, h ∈ ps) ∧
    (∀ h, catalogHeadings.find? (fun x => !pyInList x ps) = some h →
      buildIndex ps catalogHeadings = .error (.valueError h)) ∧
    (∀ fs : BuildFS, fs.docxExists = true → fs.photosDirExists = true →
      (fs.docxParagraphs.map pyStrip).filter (fun p => !p.isEmpty) = ps →
      ∀ e, buildIndex ps catalogHeadings = .error e →
        build_catalogue fs = .error e) := by
  refine ⟨buildIndex_ok_iff ps catalogHeadings,
    fun h hf => buildIndex_error_first ps catalogHeadings h hf, ?_⟩
  intro fs h1 h2 hps e he
  have hstory : build_catalogue_story fs = .error e := by
    rw [build_catalogue_story, if_neg (by simp [h1]), if_neg (by simp [h2])]
    show (buildIndex ((fs.docxParagraphs.map pyStrip).filter (fun p => !p.isEmpty))
      catalogHeadings >>= _) = Except.error e
    rw [hps, he]
    rfl
  rw [build_catalogue, hstory]
  rfl

/-- Witness for C5: all headings present makes the index well defined; the
empty paragraph list fails at the first heading. -/
theorem C5_heading_index_witness :
    isOkE (buildIndex catalogHeadings catalogHeadings) = true ∧
    buildIndex [] catalogHeadings =
      .error (.valueError "General information:".toList) :=
  ⟨(C5_heading_index catalogHeadings).1.mpr (fun _ hh => hh),
   (C5_heading_index []).2.1 _ (by decide)⟩

/-! Supporting lemmas for the `create_catalog` loops. -/

theorem contentStep_contentIndex (fs : FinalFS) (reg : List (Text × Text))
    (s : CatState) : (contentStep fs reg s).contentIndex = s.contentIndex + 1 :=
  rfl

theorem drainStep_imageIndex (fs : FinalFS) (reg : List (Text × Text))
    (s : CatState) : (drainStep fs reg s).imageIndex = s.imageIndex + 1 :=
  rfl

theorem contentStep_imageIndex (fs : FinalFS) (reg : List (Text × Text))
    (s : CatState) :
    (contentStep fs reg s).imageIndex =
      if (decide (s.imageIndex < reg.length) &&
          shouldAddImage (pyLower ((fs.mainContent.get? s.contentIndex).getD []))
            (s.contentIndex + 1) fs.mainContent.length) = true
      then s.imageIndex + 1 else s.imageIndex :=
  rfl

theorem contentStep_attempts (fs : FinalFS) (reg : List (Text × Text))
    (s : CatState) :
    (contentStep fs reg s).attempts =
      s.attempts ++
        (if (decide (s.imageIndex < reg.length) &&
            shouldAddImage (pyLower ((fs.mainContent.get? s.contentIndex).getD []))
              (s.contentIndex + 1) fs.mainContent.length) = true
        then [s.imageIndex] else []) :=
  rfl

theorem drainStep_attempts (fs : FinalFS) (reg : List (Text × Text))
    (s : CatState) :
    (drainStep fs reg s).attempts = s.attempts ++ [s.imageIndex] :=
  rfl

theorem contentLoop_attempts (fs : FinalFS) (reg : List (Text × Text)) :
    ∀ k s, fs.mainContent.length - s.contentIndex = k →
      s.imageIndex ≤ reg.length →
      ∃ m, (contentLoop fs reg s).attempts =
          s.attempts ++ List.range' s.imageIndex m ∧
        (contentLoop fs reg s).imageIndex = s.imageIndex + m ∧
        s.imageIndex + m ≤ reg.length := by
  intro k
  induction k with
  | zero =>
    intro s hk hii
    have hnot : ¬s.contentIndex < fs.mainContent.length := by omega
    rw [contentLoop, if_neg hnot]
    exact ⟨0, by simp [List.range'], by simp, by simpa using hii⟩
  | succ n ih =>
    intro s hk hii
    by_cases hlt : s.contentIndex < fs.mainContent.length
    · rw [contentLoop, if_pos hlt]
      have hk' : fs.mainContent.length - (contentStep fs reg s).contentIndex = n := by
        rw [contentStep_contentIndex]
        omega
      cases hatt : (decide (s.imageIndex < reg.length) &&
          shouldAddImage (pyLower ((fs.mainContent.get? s.contentIndex).getD []))
            (s.contentIndex + 1) fs.mainContent.length) with
      | false =>
        have h1 : (contentStep fs reg s).imageIndex = s.imageIndex := by
          rw [contentStep_imageIndex, hatt]
          simp
        have h2 : (contentStep fs reg s).attempts = s.attempts := by
          rw [contentStep_attempts, hatt]
          simp
        obtain ⟨m, hm1, hm2, hm3⟩ :=
          ih (contentStep fs reg s) hk' (by rw [h1]; exact hii)
        refine ⟨m, ?_, ?_, ?_⟩
        · rw [hm1, h2, h1]
        · rw [hm2, h1]
        · rw [h1] at hm3; exact hm3
      | true =>
        have hlt2 : s.imageIndex < reg.length := by
          by_contra hc
          have hdec : decide (s.imageIndex < reg.length) = false := by
            simpa using hc
          simp [hdec] at hatt
        have h1 : (contentStep fs reg s).imageIndex = s.imageIndex + 1 := by
          rw [contentStep_imageIndex, hatt]
          simp
        have h2 : (contentStep fs reg s).attempts = s.attempts ++ [s.imageIndex] := by
          rw [contentStep_attempts, hatt]
          simp
        obtain ⟨m, hm1, hm2, hm3⟩ :=
          ih (contentStep fs reg s) hk' (by rw [h1]; omega)
        refine ⟨m + 1, ?_, ?_, ?_⟩
        · rw [hm1, h2, h1, List.append_assoc]
          rfl
        · rw [hm2, h1]
          omega
        · rw [h1] at hm3
          omega
    · rw [contentLoop, if_neg hlt]
      exact ⟨0, by simp [List.range'], by simp, by simpa using hii⟩

theorem drainLoop_attempts (fs : FinalFS) (reg : List (Text × Text)) :
    ∀ k s, reg.length - s.imageIndex ≤ k → s.imageIndex ≤ reg.length →
      (drainLoop fs reg s).attempts =
        s.attempts ++ List.range' s.imageIndex (reg.length - s.imageIndex) ∧
      (drainLoop fs reg s).imageIndex = reg.length := by
  intro k
  induction k with
  | zero =>
    intro s hk hle
    have hnot : ¬s.imageIndex < reg.length := by omega
    have hz : reg.length - s.imageIndex = 0 := by omega
    rw [drainLoop, if_neg hnot]
    exact ⟨by simp [hz, List.range'], by omega⟩
  | succ n ih =>
    intro s hk hle
    by_cases hlt : s.imageIndex < reg.length
    · rw [drainLoop, if_pos hlt]
      have h1 : (drainStep fs reg s).imageIndex = s.imageIndex + 1 := rfl
      obtain ⟨hm1, hm2⟩ :=
        ih (drainStep fs reg s) (by rw [h1]; omega) (by rw [h1]; omega)
      constructor
      · rw [hm1, drainStep_attempts, h1, List.append_assoc]
        have hsplit : reg.length - s.imageIndex =
            (reg.length - (s.imageIndex + 1)) + 1 := by omega
        rw [hsplit]
        rfl
      · exact hm2
    · rw [drainLoop, if_neg hlt]
      have hz : reg.length - s.imageIndex = 0 := by omega
      exact ⟨by simp [hz, List.range'], by omega⟩

theorem runContentFuel_isSome (fs : FinalFS) (reg : List (Text × Text)) :
    ∀ k s, fs.mainContent.length - s.contentIndex ≤ k →
      (runContentFuel fs reg k s).isSome = true := by
  intro k
  induction k with
  | zero =>
    intro s hk
    have hnot : ¬s.contentIndex < fs.mainContent.length := by omega
    rw [runContentFuel, if_neg hnot]
    rfl
  | succ n ih =>
    intro s hk
    rw [runContentFuel]
    by_cases hlt : s.contentIndex < fs.mainContent.length
    · rw [if_pos hlt]
      exact ih (contentStep fs reg s) (by rw [contentStep_contentIndex]; omega)
    · rw [if_neg hlt]
      rfl

theorem runDrainFuel_isSome (fs : FinalFS) (reg : List (Text × Text)) :
    ∀ k s, reg.length - s.imageIndex ≤ k →
      (runDrainFuel fs reg k s).isSome = true := by
  intro k
  induction k with
  | zero =>
    intro s hk
    have hnot : ¬s.imageIndex < reg.length := by omega
    rw [runDrainFuel, if_neg hnot]
    rfl
  | succ n ih =>
    intro s hk
    rw [runDrainFuel]
    by_cases hlt : s.imageIndex < reg.length
    · rw [if_pos hlt]
      exact ih (drainStep fs reg s) (by rw [drainStep_imageIndex]; omega)
    · rw [if_neg hlt]
      rfl

/-! ### Claim C6 -/

/-- C6: the main content loop and the remaining-images loop of
`create_catalog` terminate on every finite input: each iteration strictly
increases its index (`content_index`, resp. `image_index`), and running the
loop with fuel `length − index` always finishes. -/
theorem C6_loops_terminate (fs : FinalFS) (reg : List (Text × Text))
    (s : CatState) :
    (contentStep fs reg s).contentIndex = s.contentIndex + 1 ∧
    (drainStep fs reg s).imageIndex = s.imageIndex + 1 ∧
    (∃ n, (runContentFuel fs reg n s).isSome = true) ∧
    (∃ n, (runDrainFuel fs reg n s).isSome = true) :=
  ⟨rfl, rfl,
   ⟨fs.mainContent.length - s.contentIndex,
     runContentFuel_isSome fs reg _ s (le_refl _)⟩,
   ⟨reg.length - s.imageIndex, runDrainFuel_isSome fs reg _ s (le_refl _)⟩⟩

/-! ### Claim C7 -/

/-- C7: `should_add` holds exactly when the paragraph has a synopsis-like
keyword, or the post-increment content index is greater than 10 and divisible
by 12, or the index is five before the end; and across the content loop plus
the trailing drain loop every regular image is attempted exactly once, in
extraction order (the attempted indices are `range`), with `image_index`
ending exactly at the number of regular images (so it never exceeds it). -/
theorem C7_image_distribution (fs : FinalFS) :
    (∀ lower ci total, shouldAddImage lower ci total = true ↔
      (anyKw addKeywords lower = true ∨ (ci % 12 = 0 ∧ ci > 10) ∨
        ci = total - 5)) ∧
    (drainLoop fs (regularImages fs.images)
        (contentLoop fs (regularImages fs.images)
          ⟨0, 0, titlePage fs ++ [Flowable.pageBreak], []⟩)).attempts =
      List.range (regularImages fs.images).length ∧
    (drainLoop fs (regularImages fs.images)
        (contentLoop fs (regularImages fs.images)
          ⟨0, 0, titlePage fs ++ [Flowable.pageBreak], []⟩)).imageIndex =
      (regularImages fs.images).length := by
  obtain ⟨m, hc1, hc2, hc3⟩ := contentLoop_attempts fs (regularImages fs.images)
    (fs.mainContent.length - 0) ⟨0, 0, titlePage fs ++ [Flowable.pageBreak], []⟩
    rfl (Nat.zero_le _)
  obtain ⟨hd1, hd2⟩ := drainLoop_attempts fs (regularImages fs.images)
    ((regularImages fs.images).length -
      (contentLoop fs (regularImages fs.images)
        ⟨0, 0, titlePage fs ++ [Flowable.pageBreak], []⟩).imageIndex)
    (contentLoop fs (regularImages fs.images)
      ⟨0, 0, titlePage fs ++ [Flowable.pageBreak], []⟩)
    (le_refl _) (by rw [hc2]; omega)
  refine ⟨?_, ?_, hd2⟩
  · intro lower ci total
    rw [shouldAddImage]
    by_cases h1 : anyKw addKeywords lower = true
    · simp [h1]
    · by_cases h2 : ci % 12 = 0 ∧ ci > 10
      · simp [h1, h2]
      · by_cases h3 : ci = total - 5
        · simp [h1, h2, h3]
        · simp [h1, h2, h3]
  · rw [hd1, hc1, hc2]
    simp only [List.nil_append, Nat.zero_add]
    have hjoin : List.range' 0 m ++
        List.range' m ((regularImages fs.images).length - m) =
        List.range' 0 (m + ((regularImages fs.images).length - m)) := by
      rw [Nat.add_comm m ((regularImages fs.images).length - m)]
      simpa using List.range'_append 0 m ((regularImages fs.images).length - m) 1
    rw [hjoin, List.range_eq_range']
    congr 1
    omega

/-! ### Claim C4 -/

/-- C4: optional cosmetic steps never raise: `get_image_dimensions` returns
the fallback 4 × 3 inches whenever opening or measuring fails, the
logo-loading step of `create_catalog` is skipped silently on failure (the
story is as if the logo did not exist), and `prepare_rtl` in
`generate_original_title_pdf.py` returns its input unchanged whenever
reshaping fails. -/
theorem C4_optional_cosmetics :
    (∀ maxW maxH : ℚ,
      get_image_dimensions none maxW maxH = (4 * inchQ, 3 * inchQ)) ∧
    (∀ w maxW maxH : ℚ,
      get_image_dimensions (some (w, 0)) maxW maxH = (4 * inchQ, 3 * inchQ)) ∧
    (∀ fs : FinalFS, fs.logoLoads = false →
      titlePage fs = titlePage { fs with logoExists := false }) ∧
    (∀ (reshape : Text → Option Text) (t : Text), reshape t = none →
      prepare_rtl reshape t = t) := by
  refine ⟨fun maxW maxH => rfl, fun w maxW maxH => ?_, ?_, ?_⟩
  · simp [get_image_dimensions]
  · intro fs h
    cases hex : fs.logoExists <;> simp [titlePage, h, hex]
  · intro reshape t h
    simp [prepare_rtl, h]

/-- Witness for C4 at concrete inputs whose optional steps all fail. -/
theorem C4_optional_cosmetics_witness :
    get_image_dimensions none 10 10 = (4 * inchQ, 3 * inchQ) ∧
    titlePage ⟨[], [], true, false, fun _ => none, fun _ => true⟩ =
      titlePage ⟨[], [], false, false, fun _ => none, fun _ => true⟩ ∧
    prepare_rtl (fun _ => none) "abc".toList = "abc".toList :=
  ⟨C4_optional_cosmetics.1 10 10,
   C4_optional_cosmetics.2.2.1 ⟨[], [], true, false, fun _ => none, fun _ => true⟩ rfl,
   C4_optional_cosmetics.2.2.2 (fun _ => none) "abc".toList rfl⟩

/-! ### Claim C10 -/

/-- C10: image scaling never exceeds the given bounds and preserves the
aspect ratio: for positive source dimensions, `get_image_dimensions` (on a
successfully opened image) and `make_image_flowable` return dimensions within
`max_width × max_height` whose cross-multiplied ratio equals the source
ratio, and `make_image_flowable`'s `min(..., 1.0)` scale never enlarges. -/
theorem C10_image_scaling (w h maxW maxH : ℚ) (hw : 0 < w) (hh : 0 < h) :
    ((get_image_dimensions (some (w, h)) maxW maxH).1 ≤ maxW ∧
     (get_image_dimensions (some (w, h)) maxW maxH).2 ≤ maxH ∧
     (get_image_dimensions (some (w, h)) maxW maxH).1 * h =
       (get_image_dimensions (some (w, h)) maxW maxH).2 * w) ∧
    (make_image_flowable true (some (w, h)) maxW maxH =
       some (w * min (min (maxW / w) (maxH / h)) 1,
             h * min (min (maxW / w) (maxH / h)) 1) ∧
     w * min (min (maxW / w) (maxH / h)) 1 ≤ maxW ∧
     h * min (min (maxW / w) (maxH / h)) 1 ≤ maxH ∧
     (w * min (min (maxW / w) (maxH / h)) 1) * h =
       (h * min (min (maxW / w) (maxH / h)) 1) * w ∧
     w * min (min (maxW / w) (maxH / h)) 1 ≤ w ∧
     h * min (min (maxW / w) (maxH / h)) 1 ≤ h) := by
  have hh0 : h ≠ 0 := ne_of_gt hh
  have hw0 : w ≠ 0 := ne_of_gt hw
  have ha : 0 < w / h := div_pos hw hh
  constructor
  · have hg : get_image_dimensions (some (w, h)) maxW maxH =
        (let p := if w > maxW then (maxW, maxW / (w / h)) else (w, h);
         if p.2 > maxH then (maxH * (w / h), maxH) else p) := by
      rw [get_image_dimensions]
      rw [if_neg hh0, if_neg (fun hc => absurd hc.2 (ne_of_gt ha))]
    rw [hg]
    by_cases h1 : w > maxW
    · simp only [if_pos h1]
      by_cases h2 : maxW / (w / h) > maxH
      · simp only [if_pos h2]
        refine ⟨?_, le_refl _, ?_⟩
        · have := (lt_div_iff₀ ha).mp h2
          exact le_of_lt this
        · field_simp
      · simp only [if_neg h2]
        refine ⟨le_refl _, not_lt.mp h2, ?_⟩
        field_simp
    · simp only [if_neg h1]
      by_cases h2 : h > maxH
      · simp only [if_pos h2]
        refine ⟨?_, le_refl _, ?_⟩
        · have hlt : maxH * (w / h) < h * (w / h) :=
            mul_lt_mul_of_pos_right h2 ha
          have hcancel : h * (w / h) = w := by field_simp
          rw [hcancel] at hlt
          exact le_of_lt (lt_of_lt_of_le hlt (not_lt.mp h1))
        · field_simp
      · simp only [if_neg h2]
        exact ⟨not_lt.mp h1, not_lt.mp h2, by ring⟩
  · have hmif : make_image_flowable true (some (w, h)) maxW maxH =
        some (w * min (min (maxW / w) (maxH / h)) 1,
              h * min (min (maxW / w) (maxH / h)) 1) := by
      rw [make_image_flowable]
      simp only [Bool.not_true, Bool.false_eq_true, if_false]
      rw [if_neg (by push_neg; exact ⟨hw, hh⟩)]
    have hs1 : min (min (maxW / w) (maxH / h)) 1 ≤ maxW / w :=
      le_trans (min_le_left _ _) (min_le_left _ _)
    have hs2 : min (min (maxW / w) (maxH / h)) 1 ≤ maxH / h :=
      le_trans (min_le_left _ _) (min_le_right _ _)
    have hs3 : min (min (maxW / w) (maxH / h)) 1 ≤ 1 := min_le_right _ _
    refine ⟨hmif, ?_, ?_, by ring, ?_, ?_⟩
    · have := (le_div_iff₀ hw).mp hs1
      linarith [this]
    · have := (le_div_iff₀ hh).mp hs2
      linarith [this]
    · calc w * min (min (maxW / w) (maxH / h)) 1 ≤ w * 1 :=
            mul_le_mul_of_nonneg_left hs3 (le_of_lt hw)
        _ = w := mul_one w
    · calc h * min (min (maxW / w) (maxH / h)) 1 ≤ h * 1 :=
            mul_le_mul_of_nonneg_left hs3 (le_of_lt hh)
        _ = h := mul_one h

/-- Witness for C10 at a concrete 800 × 600 image inside 500 × 500 bounds. -/
theorem C10_image_scaling_witness :
    (get_image_dimensions (some (800, 600)) 500 500).1 ≤ 500 ∧
    (get_image_dimensions (some (800, 600)) 500 500).2 ≤ 500 ∧
    make_image_flowable true (some (800, 600)) 500 500 =
      some (800 * min (min (500 / 800) (500 / 600)) 1,
            600 * min (min (500 / 800) (500 / 600)) 1) := by
  have h := C10_image_scaling 800 600 500 500 (by norm_num) (by norm_num)
  exact ⟨h.1.1, h.1.2.1, h.2.1⟩

/-! ### Claim C8 -/

/-- C8: each modelled script run writes exactly one PDF whose path is a fixed
constant independent of the input content: `build_catalogue` writes
`stateless-as-wind-cataloge.pdf`, `create_catalog` writes `catalog.pdf`,
`restructure_original_title.main` writes `Original title.pdf`, and the
`OUTPUT_PDF` constants of the two remaining scripts are the fixed literals
`stateless-as-wind-cataloge-v2.pdf` and `Original title.pdf`. -/
theorem C8_fixed_output_paths :
    (∀ (fs : BuildFS) (out : BuildOutput), build_catalogue fs = .ok out →
      out.pdfPath = "stateless-as-wind-cataloge.pdf".toList) ∧
    (∀ fs : FinalFS, (create_catalog fs).1 = "catalog.pdf".toList) ∧
    (∀ (de : Bool) (ls : List Text) (out : RestructOutput),
      restructure_main de ls = .ok out →
      out.pdfPath = "Original title.pdf".toList) ∧
    v2_output_pdf = "stateless-as-wind-cataloge-v2.pdf".toList ∧
    got_output_pdf = "Original title.pdf".toList := by
  refine ⟨?_, fun fs => rfl, ?_, rfl, rfl⟩
  · intro fs out h
    rw [build_catalogue] at h
    cases hs : build_catalogue_story fs with
    | ok story =>
      rw [hs] at h
      simp only [Except.map] at h
      rw [← Except.ok.inj h]
    | error e =>
      rw [hs] at h
      simp [Except.map] at h
  · intro de ls out h
    cases de with
    | false => simp [restructure_main] at h
    | true =>
      simp only [restructure_main, Bool.true_eq_false, if_false] at h
      rw [← Except.ok.inj h]

/-- Witness for C8: a successful `build_catalogue` run, a `create_catalog`
run and a successful `restructure_original_title.main` run, each writing at
its fixed path. -/
theorem C8_fixed_output_paths_witness :
    (∃ out, build_catalogue witnessBuildFS = .ok out ∧
      out.pdfPath = "stateless-as-wind-cataloge.pdf".toList) ∧
    (create_catalog ⟨[], [], false, false, fun _ => none, fun _ => true⟩).1 =
      "catalog.pdf".toList ∧
    (∃ out, restructure_main true [] = .ok out ∧
      out.pdfPath = "Original title.pdf".toList) := by
  refine ⟨?_, C8_fixed_output_paths.2.1 _, ?_⟩
  · have hok : isOkE (build_catalogue witnessBuildFS) = true := by rfl
    cases hb : build_catalogue witnessBuildFS with
    | ok out => exact ⟨out, rfl, C8_fixed_output_paths.1 witnessBuildFS out hb⟩
    | error e =>
      rw [hb] at hok
      simp [isOkE] at hok
  · cases hb : restructure_main true [] with
    | ok out => exact ⟨out, rfl, C8_fixed_output_paths.2.2.1 true [] out hb⟩
    | error e =>
      simp [restructure_main] at hb
